import Mathlib

/-!
Shallow embedding of the core of the `golem` durable-worker runtime, centred on
the per-worker operation log (`PrimaryOplog` in
`golem-worker-executor-base/src/services/oplog/primary.rs`), the filesystem
blob storage (`storage/blob/fs.rs`), the worker lifecycle (`worker.rs`), the
worker-service metadata queries (`golem-worker-service-base/src/service/worker/default.rs`)
and the durability wrapper for host calls.

Machine integers (`u64` oplog indices, `u8` replica counts, `usize` sizes) are
modelled as `Nat`; the source never relies on wrap-around for these.
Asynchronous effectful calls against the storage backends are modelled by
explicit state passing (the indexed stream and the blob store are part of the
state, or are supplied as oracles where the backend response is free).
-/

/-- Wrapped function types of the durability layer
(`golem_common::model::WrappedFunctionType`). -/
inductive WrappedFunctionType where
  | readLocal
  | writeLocal
  | readRemote
  | writeRemote
  | readRemoteBatched
deriving DecidableEq, Repr

/-- Oplog entries (`golem_common::model::oplog::OplogEntry`).  The oplog logic
never inspects the entries it stores, so only the constructors needed by the
claims are modelled: `importedFunctionInvoked` carries the serialized host-call
response used by the durability wrapper, and `create` / `noOp` serve as
distinguishable opaque entries. -/
inductive OplogEntry where
  | create
  | importedFunctionInvoked (functionName : String) (response : List Nat)
      (wrappedFunctionType : WrappedFunctionType)
  | noOp
deriving DecidableEq, Repr

/-- State of one open primary oplog (`PrimaryOplogState` in `primary.rs`),
together with the slice of the backing `IndexedStorage` stream that belongs to
its key.  `stream` is the committed indexed stream (pairs of index and entry,
in append order), `buffer` is the in-memory staging `VecDeque`. -/
structure PrimaryOplogState where
  maxOperationsBeforeCommit : Nat
  replicas : Nat
  stream : List (Nat × OplogEntry)
  buffer : List OplogEntry
  lastOplogIdx : Nat
  lastCommittedIdx : Nat
deriving DecidableEq, Repr

/-- Pairs the elements of a list with consecutive indices starting at `i`;
describes where `PrimaryOplogState.append` puts a batch of entries. -/
def zipWithIndexFrom (i : Nat) : List OplogEntry → List (Nat × OplogEntry)
  | [] => []
  | e :: rest => (i, e) :: zipWithIndexFrom (i + 1) rest

/-- Embedding of `PrimaryOplogState::append`: each entry is appended to the
indexed stream at `last_committed_idx.next()` and `last_committed_idx` is
advanced to that index. -/
def PrimaryOplogState.append (s : PrimaryOplogState) : List OplogEntry → PrimaryOplogState
  | [] => s
  | e :: rest =>
    ({ s with
        stream := s.stream ++ [(s.lastCommittedIdx + 1, e)],
        lastCommittedIdx := s.lastCommittedIdx + 1 }).append rest

/-- Embedding of `PrimaryOplogState::commit`: drains the staging buffer and
appends the drained entries to the indexed stream. -/
def PrimaryOplogState.commit (s : PrimaryOplogState) : PrimaryOplogState :=
  ({ s with buffer := [] }).append s.buffer

/-- Embedding of `PrimaryOplogState::add`: pushes the entry onto the staging
buffer, commits when the buffer length exceeds `max_operations_before_commit`,
and then advances `last_oplog_idx`. -/
def PrimaryOplogState.add (s : PrimaryOplogState) (e : OplogEntry) : PrimaryOplogState :=
  let s1 := { s with buffer := s.buffer ++ [e] }
  let s2 :=
    if s1.maxOperationsBeforeCommit < s1.buffer.length then s1.commit else s1
  { s2 with lastOplogIdx := s2.lastOplogIdx + 1 }

/-- Embedding of `PrimaryOplog::new`: the staging buffer starts empty and both
`last_committed_idx` and `last_oplog_idx` start at the last index already
present in the indexed stream. -/
def PrimaryOplogState.initial (maxOps replicas : Nat) (stream : List (Nat × OplogEntry))
    (lastOplogIdx : Nat) : PrimaryOplogState :=
  { maxOperationsBeforeCommit := maxOps
    replicas := replicas
    stream := stream
    buffer := []
    lastOplogIdx := lastOplogIdx
    lastCommittedIdx := lastOplogIdx }

/-- Embedding of `PrimaryOplogState::wait_for_replicas`: the requested replica
count is clamped to the configured number of replicas, the indexed backend is
asked (modelled by the oracle `backend`, mapping the count passed to the
backend to the count the backend reports, or to an error), and the result is
`true` exactly when the reported count equals the clamped count; a backend
error yields `false`. -/
def PrimaryOplogState.waitForReplicas (s : PrimaryOplogState)
    (backend : Nat → Except String Nat) (replicas : Nat) : Bool :=
  let r := min replicas s.replicas
  match backend r with
  | .ok n => n == r
  | .error _ => false

/-- Embedding of `Oplog::wait_for_replicas` for `PrimaryOplog`: commits the
staged buffer first, then delegates to `PrimaryOplogState::wait_for_replicas`
on the committed state. -/
def primaryWaitForReplicas (s : PrimaryOplogState) (backend : Nat → Except String Nat)
    (replicas : Nat) : PrimaryOplogState × Bool :=
  let s1 := s.commit
  (s1, s1.waitForReplicas backend replicas)

theorem append_spec (es : List OplogEntry) : ∀ s : PrimaryOplogState,
    (s.append es).stream = s.stream ++ zipWithIndexFrom (s.lastCommittedIdx + 1) es ∧
    (s.append es).lastCommittedIdx = s.lastCommittedIdx + es.length ∧
    (s.append es).buffer = s.buffer ∧
    (s.append es).lastOplogIdx = s.lastOplogIdx ∧
    (s.append es).maxOperationsBeforeCommit = s.maxOperationsBeforeCommit ∧
    (s.append es).replicas = s.replicas := by
  induction es with
  | nil => intro s; simp [PrimaryOplogState.append, zipWithIndexFrom]
  | cons e rest ih =>
    intro s
    have h := ih ({ s with
        stream := s.stream ++ [(s.lastCommittedIdx + 1, e)],
        lastCommittedIdx := s.lastCommittedIdx + 1 })
    simp only [PrimaryOplogState.append, zipWithIndexFrom] at *
    refine ⟨?_, ?_, h.2.2.1, h.2.2.2.1, h.2.2.2.2.1, h.2.2.2.2.2⟩
    · rw [h.1]; simp
    · rw [h.2.1, List.length_cons]; omega

theorem commit_spec (s : PrimaryOplogState) :
    s.commit.stream = s.stream ++ zipWithIndexFrom (s.lastCommittedIdx + 1) s.buffer ∧
    s.commit.lastCommittedIdx = s.lastCommittedIdx + s.buffer.length ∧
    s.commit.buffer = [] ∧
    s.commit.lastOplogIdx = s.lastOplogIdx ∧
    s.commit.maxOperationsBeforeCommit = s.maxOperationsBeforeCommit ∧
    s.commit.replicas = s.replicas := by
  have h := append_spec s.buffer { s with buffer := [] }
  simpa [PrimaryOplogState.commit] using h

theorem commit_stream (s : PrimaryOplogState) :
    s.commit.stream = s.stream ++ zipWithIndexFrom (s.lastCommittedIdx + 1) s.buffer :=
  (commit_spec s).1

theorem commit_lastCommittedIdx (s : PrimaryOplogState) :
    s.commit.lastCommittedIdx = s.lastCommittedIdx + s.buffer.length :=
  (commit_spec s).2.1

theorem commit_buffer (s : PrimaryOplogState) : s.commit.buffer = [] :=
  (commit_spec s).2.2.1

theorem commit_lastOplogIdx (s : PrimaryOplogState) : s.commit.lastOplogIdx = s.lastOplogIdx :=
  (commit_spec s).2.2.2.1

theorem add_lastOplogIdx (s : PrimaryOplogState) (e : OplogEntry) :
    (s.add e).lastOplogIdx = s.lastOplogIdx + 1 := by
  simp only [PrimaryOplogState.add]
  split
  · simp [commit_lastOplogIdx]
  · rfl

theorem add_of_full (s : PrimaryOplogState) (e : OplogEntry)
    (h : s.maxOperationsBeforeCommit < s.buffer.length + 1) :
    (s.add e).stream = s.stream ++ zipWithIndexFrom (s.lastCommittedIdx + 1) (s.buffer ++ [e]) ∧
    (s.add e).buffer = [] ∧
    (s.add e).lastCommittedIdx = s.lastCommittedIdx + (s.buffer.length + 1) := by
  simp only [PrimaryOplogState.add]
  rw [if_pos (by simpa using h)]
  refine ⟨?_, ?_, ?_⟩
  · have := commit_stream { s with buffer := s.buffer ++ [e] }
    simpa using this
  · have := commit_buffer { s with buffer := s.buffer ++ [e] }
    simpa using this
  · have := commit_lastCommittedIdx { s with buffer := s.buffer ++ [e] }
    simpa using this

theorem add_of_not_full (s : PrimaryOplogState) (e : OplogEntry)
    (h : ¬ s.maxOperationsBeforeCommit < s.buffer.length + 1) :
    (s.add e).stream = s.stream ∧
    (s.add e).buffer = s.buffer ++ [e] ∧
    (s.add e).lastCommittedIdx = s.lastCommittedIdx := by
  simp only [PrimaryOplogState.add]
  rw [if_neg (by simpa using h)]
  exact ⟨rfl, rfl, rfl⟩

/-- Invariant relating the staged view of the oplog index to the committed
index and the staging buffer. -/
def oplogBufferInvariant (s : PrimaryOplogState) : Prop :=
  s.lastOplogIdx = s.lastCommittedIdx + s.buffer.length

instance (s : PrimaryOplogState) : Decidable (oplogBufferInvariant s) := by
  unfold oplogBufferInvariant; infer_instance

/-- C3 counterexample: with `max_operations_before_commit = 2` and an empty
staging buffer, the `add` that brings the staged-entry count to exactly 2 does
not commit: the backing stream stays empty and both entries remain staged,
refuting the claim that this `add` appends the buffer at indices 1 and 2. -/
theorem c3_boundary_counterexample :
    (((PrimaryOplogState.initial 2 1 [] 0).add .create).add .noOp).stream = [] ∧
    (((PrimaryOplogState.initial 2 1 [] 0).add .create).add .noOp).buffer =
      [OplogEntry.create, OplogEntry.noOp] ∧
    ¬ (((PrimaryOplogState.initial 2 1 [] 0).add .create).add .noOp).stream =
        [(1, OplogEntry.create), (2, OplogEntry.noOp)] := by
  decide

/-- C3 (amended): the `add` that brings the staged-entry count to
`max_operations_before_commit + 1` triggers the single commit, appending the
entire buffer (including the new entry) in order at consecutive indices
starting from `last_committed_idx + 1` and draining the buffer, while any
`add` that brings the count to at most `max_operations_before_commit`
(in particular to `max` or `max − 1`) triggers no commit. -/
theorem c3_add_commit_boundary (s : PrimaryOplogState) (e : OplogEntry) :
    (s.buffer.length = s.maxOperationsBeforeCommit →
      (s.add e).stream =
        s.stream ++ zipWithIndexFrom (s.lastCommittedIdx + 1) (s.buffer ++ [e]) ∧
      (s.add e).buffer = [] ∧
      (s.add e).lastCommittedIdx = s.lastCommittedIdx + (s.buffer.length + 1)) ∧
    (s.buffer.length + 1 ≤ s.maxOperationsBeforeCommit →
      (s.add e).stream = s.stream ∧
      (s.add e).buffer = s.buffer ++ [e] ∧
      (s.add e).lastCommittedIdx = s.lastCommittedIdx) := by
  constructor
  · intro h
    exact add_of_full s e (by omega)
  · intro h
    exact add_of_not_full s e (by omega)

theorem c3_add_commit_boundary_witness :
    (((⟨1, 1, [], [OplogEntry.create], 1, 0⟩ : PrimaryOplogState).add .noOp).stream =
        [(1, OplogEntry.create), (2, OplogEntry.noOp)] ∧
      ((⟨1, 1, [], [OplogEntry.create], 1, 0⟩ : PrimaryOplogState).add .noOp).buffer = []) ∧
    (((⟨2, 1, [], [OplogEntry.create], 1, 0⟩ : PrimaryOplogState).add .noOp).stream = [] ∧
      ((⟨2, 1, [], [OplogEntry.create], 1, 0⟩ : PrimaryOplogState).add .noOp).buffer =
        [OplogEntry.create, OplogEntry.noOp]) := by
  constructor
  · have h := (c3_add_commit_boundary ⟨1, 1, [], [OplogEntry.create], 1, 0⟩ .noOp).1 (by decide)
    refine ⟨?_, h.2.1⟩
    rw [h.1]; decide
  · have h := (c3_add_commit_boundary ⟨2, 1, [], [OplogEntry.create], 1, 0⟩ .noOp).2 (by decide)
    exact ⟨h.1, h.2.1⟩

/-- C10: the invariant `last_oplog_idx = last_committed_idx + buffer length`
holds after construction and is preserved by `add` and `commit`; every `add`
advances `current_oplog_index` (that is, `last_oplog_idx`) by exactly one, and
`commit` never changes it. -/
theorem c10_oplog_index_invariant :
    (∀ maxOps replicas stream idx,
      oplogBufferInvariant (PrimaryOplogState.initial maxOps replicas stream idx)) ∧
    (∀ (s : PrimaryOplogState) (e : OplogEntry),
      oplogBufferInvariant s → oplogBufferInvariant (s.add e)) ∧
    (∀ s : PrimaryOplogState, oplogBufferInvariant s → oplogBufferInvariant s.commit) ∧
    (∀ (s : PrimaryOplogState) (e : OplogEntry),
      (s.add e).lastOplogIdx = s.lastOplogIdx + 1) ∧
    (∀ s : PrimaryOplogState, s.commit.lastOplogIdx = s.lastOplogIdx) := by
  refine ⟨?_, ?_, ?_, add_lastOplogIdx, commit_lastOplogIdx⟩
  · intro maxOps replicas stream idx
    simp [oplogBufferInvariant, PrimaryOplogState.initial]
  · intro s e h
    unfold oplogBufferInvariant at *
    rcases Nat.lt_or_ge s.maxOperationsBeforeCommit (s.buffer.length + 1) with hf | hnf
    · have hc := add_of_full s e hf
      rw [add_lastOplogIdx, hc.2.1, hc.2.2]
      simp; omega
    · have hc := add_of_not_full s e (by omega)
      rw [add_lastOplogIdx, hc.2.1, hc.2.2]
      simp; omega
  · intro s h
    unfold oplogBufferInvariant at *
    rw [commit_lastOplogIdx, commit_lastCommittedIdx, commit_buffer]
    simp; omega

theorem commit_replicas (s : PrimaryOplogState) : s.commit.replicas = s.replicas :=
  (commit_spec s).2.2.2.2.2

/-- Return condition asserted by claim C4: `wait_for_replicas(n, timeout)`
returns `true` exactly when the count reported by the backend equals the
requested count `n` itself. -/
def c4ClaimedCondition (s : PrimaryOplogState) (backend : Nat → Except String Nat)
    (n : Nat) : Prop :=
  (primaryWaitForReplicas s backend n).2 = true ↔ backend (min n s.replicas) = .ok n

/-- C4 counterexample: with one configured replica, `wait_for_replicas(2, _)`
asks the backend for `min 2 1 = 1` replica; when the backend reports 1 the
call returns `true`, although the reported count 1 differs from the requested
count 2 — refuting the claimed return condition. -/
theorem c4_counterexample :
    ¬ c4ClaimedCondition (PrimaryOplogState.initial 2 1 [] 0) (fun r => .ok r) 2 := by
  intro h
  have h2 := h.mp (by decide)
  simp [PrimaryOplogState.initial] at h2

/-- C4 (amended): `wait_for_replicas(n, timeout)` commits the staged buffer
first, asks the backend for `min(n, configured_replicas)` replicas, and
returns `true` iff the count the backend reports equals that clamped count;
a backend error (including a timeout surfaced as an error) yields `false`. -/
theorem c4_wait_for_replicas (s : PrimaryOplogState) (backend : Nat → Except String Nat)
    (n : Nat) :
    (primaryWaitForReplicas s backend n).1 = s.commit ∧
    ((primaryWaitForReplicas s backend n).2 = true ↔
      backend (min n s.replicas) = .ok (min n s.replicas)) ∧
    (∀ e, backend (min n s.replicas) = .error e →
      (primaryWaitForReplicas s backend n).2 = false) := by
  refine ⟨rfl, ?_, ?_⟩
  · simp only [primaryWaitForReplicas, PrimaryOplogState.waitForReplicas, commit_replicas]
    cases hb : backend (min n s.replicas) with
    | ok m => simp [beq_iff_eq]
    | error e => simp
  · intro e he
    simp only [primaryWaitForReplicas, PrimaryOplogState.waitForReplicas, commit_replicas, he]

theorem c4_wait_for_replicas_witness :
    (primaryWaitForReplicas (PrimaryOplogState.initial 2 1 [] 0)
      (fun _ => .error "timeout") 1).2 = false :=
  (c4_wait_for_replicas (PrimaryOplogState.initial 2 1 [] 0) (fun _ => .error "timeout") 1).2.2
    "timeout" rfl

theorem c10_oplog_index_invariant_witness :
    oplogBufferInvariant ((PrimaryOplogState.initial 2 1 [] 0).add .create) ∧
    oplogBufferInvariant ((PrimaryOplogState.initial 2 1 [] 0).add .create).commit :=
  ⟨c10_oplog_index_invariant.2.1 _ .create (c10_oplog_index_invariant.1 2 1 [] 0),
   c10_oplog_index_invariant.2.2.1 _
     (c10_oplog_index_invariant.2.1 _ .create (c10_oplog_index_invariant.1 2 1 [] 0))⟩

/-- Uppercase hexadecimal digit characters, as produced by the Rust `X`
format specifier. -/
def hexDigitChar : Nat → Char
  | 0 => '0'
  | 1 => '1'
  | 2 => '2'
  | 3 => '3'
  | 4 => '4'
  | 5 => '5'
  | 6 => '6'
  | 7 => '7'
  | 8 => '8'
  | 9 => '9'
  | 10 => 'A'
  | 11 => 'B'
  | 12 => 'C'
  | 13 => 'D'
  | 14 => 'E'
  | _ => 'F'

/-- Rendering of one `u8` under the Rust format specifier `02X`: exactly two
uppercase hexadecimal digits (md5 digest elements are bytes, so values are
below 256). -/
def byteHex (b : Nat) : String :=
  String.mk [hexDigitChar (b / 16 % 16), hexDigitChar (b % 16)]

/-- Rendering of a `Vec of u8` under the Rust format specifier `02X?` (the
Debug list formatter applied element-wise), as used by
`PrimaryOplog::upload_payload` and `download_payload` to build the payload
path: the bytes in uppercase two-digit hex, joined by a comma and a space and
surrounded by square brackets. -/
def md5DebugFormat (bytes : List Nat) : String :=
  "[" ++ String.intercalate ", " (bytes.map byteHex) ++ "]"

/-- Rendering of a digest as claimed by the spec sentence for C5: the plain
concatenated uppercase hexadecimal digits of the digest bytes.  Defined from
the claim's words, for comparison against the rendering the source uses. -/
def md5HexConcat (bytes : List Nat) : String :=
  String.join (bytes.map byteHex)

/-- Component of a path, mirroring Rust `std::path::Component`: a normal
component or a parent-directory component (`..`).  `.` components and
redundant separators are already normalized away by Rust component iteration,
so they are not modelled. -/
inductive PathComp where
  | normal (s : String)
  | parentDir
deriving DecidableEq, Repr

/-- Model of a Rust `PathBuf`: an absolute flag plus the component list. -/
structure RustPath where
  absolute : Bool
  comps : List PathComp
deriving DecidableEq, Repr

/-- Model of `PathBuf::push`: pushing an absolute path replaces the whole
buffer, pushing a relative path appends its components. -/
def RustPath.push (base p : RustPath) : RustPath :=
  if p.absolute then p else { base with comps := base.comps ++ p.comps }

/-- Model of `Path::starts_with`: a purely lexical, component-wise prefix
check on the unresolved components (no normalization of `..`). -/
def RustPath.startsWith (p base : RustPath) : Bool :=
  p.absolute == base.absolute && decide (base.comps <+: p.comps)

/-- Blob storage namespaces (`BlobStorageNamespace` in `storage/blob/mod.rs`),
with identifiers rendered to the strings `FileSystemBlobStorage::path_of`
pushes. -/
inductive BlobStorageNamespace where
  | compilationCache
  | customStorage (accountId : String)
  | oplogPayload (accountId : String) (workerId : String)
  | compressedOplog (accountId : String) (componentId : String) (level : Nat)
  | initialFileSystem (accountId : String)
deriving DecidableEq, Repr

/-- Directory components `FileSystemBlobStorage::path_of` pushes for each
namespace before pushing the namespace-relative path. -/
def namespaceDirs : BlobStorageNamespace → List PathComp
  | .compilationCache => [.normal "compilation_cache"]
  | .customStorage a => [.normal "custom_data", .normal a]
  | .oplogPayload a w => [.normal "oplog_payload", .normal a, .normal w]
  | .compressedOplog a c l =>
    [.normal "compressed_oplog", .normal a, .normal c, .normal (Nat.repr l)]
  | .initialFileSystem a => [.normal "initial_file_system", .normal a]

/-- Embedding of `FileSystemBlobStorage::path_of`: the canonical root, then
the namespace directories, then the namespace-relative path. -/
def pathOf (root : RustPath) (ns : BlobStorageNamespace) (path : RustPath) : RustPath :=
  (root.push { absolute := false, comps := namespaceDirs ns }).push path

/-- Embedding of `FileSystemBlobStorage::ensure_path_is_inside_root`: errors
unless the (unresolved) full path lexically starts with the root. -/
def ensurePathIsInsideRoot (root path : RustPath) : Except String Unit :=
  if !(path.startsWith root) then .error "Path is not within root" else .ok ()

/-- Operating-system resolution of the component list of a path: a `..`
component removes the preceding component (at the filesystem root it is a
no-op), a normal component is entered. -/
def resolveAux (stack : List String) : List PathComp → List String
  | [] => stack
  | .normal s :: rest => resolveAux (stack ++ [s]) rest
  | .parentDir :: rest => resolveAux stack.dropLast rest

/-- Resolved (normalized) component list of a path. -/
def resolveComps (comps : List PathComp) : List String :=
  resolveAux [] comps

/-- Filesystem contents, keyed by resolved absolute component lists. -/
def FileSystem := List String → Option (List Nat)

/-- Writes a file at a resolved path. -/
def fsWrite (fs : FileSystem) (p : List String) (data : List Nat) : FileSystem :=
  fun q => if q = p then some data else fs q

/-- Empty filesystem. -/
def fsEmpty : FileSystem := fun _ => none

/-- Embedding of `FileSystemBlobStorage::put_raw`: builds the full path,
checks it with `ensure_path_is_inside_root`, then writes at the path the
operating system resolves the full path to (parent-directory creation is
implicit in the map model). -/
def putRaw (root : RustPath) (fs : FileSystem) (ns : BlobStorageNamespace)
    (path : RustPath) (data : List Nat) : Except String FileSystem :=
  let full := pathOf root ns path
  match ensurePathIsInsideRoot root full with
  | .error e => .error e
  | .ok _ => .ok (fsWrite fs (resolveComps full.comps) data)

/-- C6: the containment check of `FileSystemBlobStorage` is purely lexical and
never fails on a relative namespace path, however many `..` components it has;
consequently `put_raw` on the path `../../escaped` under the
`compilation_cache` namespace succeeds and writes to a location whose resolved
path is outside the storage root. -/
theorem c6_path_escape_unchecked :
    (∀ (root : RustPath) (ns : BlobStorageNamespace) (p : RustPath),
      p.absolute = false →
      (ensurePathIsInsideRoot root (pathOf root ns p)).isOk = true) ∧
    ((ensurePathIsInsideRoot { absolute := true, comps := [.normal "blob_root"] }
        (pathOf { absolute := true, comps := [.normal "blob_root"] } .compilationCache
          { absolute := false,
            comps := [.parentDir, .parentDir, .normal "escaped"] })).isOk = true ∧
      resolveComps (pathOf { absolute := true, comps := [.normal "blob_root"] }
          .compilationCache
          { absolute := false,
            comps := [.parentDir, .parentDir, .normal "escaped"] }).comps = ["escaped"] ∧
      ¬ resolveComps [PathComp.normal "blob_root"] <+: ["escaped"] ∧
      (match putRaw { absolute := true, comps := [.normal "blob_root"] } fsEmpty
          .compilationCache
          { absolute := false, comps := [.parentDir, .parentDir, .normal "escaped"] }
          [7] with
        | .ok fs => fs ["escaped"]
        | .error _ => none) = some [7]) := by
  constructor
  · intro root ns p hp
    have hfull : pathOf root ns p =
        { absolute := root.absolute,
          comps := root.comps ++ (namespaceDirs ns ++ p.comps) } := by
      simp [pathOf, RustPath.push, hp, List.append_assoc]
    rw [hfull]
    simp [ensurePathIsInsideRoot, RustPath.startsWith, Except.isOk, Except.toBool,
      List.prefix_append]
  · refine ⟨by decide, by decide, by decide, by decide⟩

theorem c6_path_escape_unchecked_witness :
    (ensurePathIsInsideRoot { absolute := true, comps := [.normal "r"] }
      (pathOf { absolute := true, comps := [.normal "r"] } .compilationCache
        { absolute := false, comps := [.parentDir, .parentDir] })).isOk = true :=
  c6_path_escape_unchecked.1 { absolute := true, comps := [.normal "r"] }
    .compilationCache { absolute := false, comps := [.parentDir, .parentDir] } rfl

/-- Oplog payloads (`golem_common::model::oplog::OplogPayload`); the payload
id is the rendered UUID string. -/
inductive OplogPayload where
  | inline (data : List Nat)
  | external (payloadId : String) (md5Hash : List Nat)
deriving DecidableEq, Repr

/-- Contents of the blob storage, keyed by namespace and namespace-relative
path. -/
def BlobStore := BlobStorageNamespace × RustPath → Option (List Nat)

/-- Model of `BlobStorage::put` on the contents map. -/
def blobPut (bs : BlobStore) (k : BlobStorageNamespace × RustPath)
    (v : List Nat) : BlobStore :=
  fun q => if q = k then some v else bs q

/-- Namespace-relative path used by `upload_payload` and `download_payload`:
the digest rendered with the `02X?` Debug list formatter, then the payload id,
joined by a path separator. -/
def payloadRelPath (md5Hash : List Nat) (payloadId : String) : RustPath :=
  { absolute := false,
    comps := [.normal (md5DebugFormat md5Hash), .normal payloadId] }

/-- Embedding of `PrimaryOplog::upload_payload`.  The md5 implementation (an
external crate) and the freshly generated random payload id are supplied as
parameters. -/
def uploadPayload (md5Compute : List Nat → List Nat) (freshPayloadId : String)
    (accountId workerId : String) (maxPayloadSize : Nat) (bs : BlobStore)
    (data : List Nat) : BlobStore × OplogPayload :=
  if maxPayloadSize < data.length then
    let md5Hash := md5Compute data
    (blobPut bs (.oplogPayload accountId workerId, payloadRelPath md5Hash freshPayloadId)
        data,
      .external freshPayloadId md5Hash)
  else
    (bs, .inline data)

/-- Embedding of `PrimaryOplog::download_payload`: an inline payload returns a
copy of its bytes; an external payload is read back from blob storage at the
same namespace and path, failing when absent. -/
def downloadPayload (accountId workerId : String) (bs : BlobStore) :
    OplogPayload → Except String (List Nat)
  | .inline data => .ok data
  | .external payloadId md5Hash =>
    match bs (.oplogPayload accountId workerId, payloadRelPath md5Hash payloadId) with
    | some data => .ok data
    | none => .error "Payload not found"

/-- C2: `download_payload` after `upload_payload` returns exactly the uploaded
bytes, and `upload_payload` returns an `External` payload iff the data is
longer than `max_payload_size` (otherwise it returns `Inline` with the same
bytes). -/
theorem c2_payload_roundtrip (md5Compute : List Nat → List Nat)
    (freshPayloadId accountId workerId : String) (maxPayloadSize : Nat)
    (bs : BlobStore) (data : List Nat) :
    downloadPayload accountId workerId
        (uploadPayload md5Compute freshPayloadId accountId workerId maxPayloadSize
          bs data).1
        (uploadPayload md5Compute freshPayloadId accountId workerId maxPayloadSize
          bs data).2 = .ok data ∧
    ((∃ pid h, (uploadPayload md5Compute freshPayloadId accountId workerId
        maxPayloadSize bs data).2 = .external pid h) ↔ maxPayloadSize < data.length) ∧
    ((uploadPayload md5Compute freshPayloadId accountId workerId maxPayloadSize
        bs data).2 = .inline data ↔ data.length ≤ maxPayloadSize) := by
  by_cases hlen : maxPayloadSize < data.length
  · refine ⟨?_, ?_, ?_⟩
    · simp [uploadPayload, downloadPayload, blobPut, hlen]
    · simp [uploadPayload, hlen]
    · simp [uploadPayload, hlen]
  · refine ⟨?_, ?_, ?_⟩
    · simp [uploadPayload, downloadPayload, hlen]
    · simp [uploadPayload, hlen]
    · simp [uploadPayload, hlen]; omega

/-- Full on-disk path claimed by C5 for an externalized payload: the digest
directory rendered as concatenated uppercase hex.  Defined from the claim's
words, for comparison with the path the source computes. -/
def specClaimedPayloadPath (root : RustPath) (accountId workerId : String)
    (md5Hash : List Nat) (payloadId : String) : RustPath :=
  { absolute := root.absolute,
    comps := root.comps ++ [.normal "oplog_payload", .normal accountId,
      .normal workerId, .normal (md5HexConcat md5Hash), .normal payloadId] }

/-- C5 counterexample: for the digest bytes `[212, 29]` the directory the
source uses is the Debug list rendering, which differs from the concatenated
uppercase hex rendering the claim states, so the full path differs from the
claimed one. -/
theorem c5_payload_path_counterexample :
    pathOf { absolute := true, comps := [.normal "blob_root"] }
        (.oplogPayload "acct" "w1") (payloadRelPath [212, 29] "pid1") ≠
      specClaimedPayloadPath { absolute := true, comps := [.normal "blob_root"] }
        "acct" "w1" [212, 29] "pid1" ∧
    md5DebugFormat [212, 29] = "[D4, 1D]" ∧
    md5HexConcat [212, 29] = "D41D" := by
  refine ⟨by decide, by decide, by decide⟩

/-- C5 (amended): the blob of an externalized payload is written (and read
back) under the `OplogPayload` namespace at the relative path
`DEBUG_MD5/payload_uuid`, so its full filesystem path is
`blob-root/oplog_payload/account/worker/DEBUG_MD5/payload_uuid`, where
`DEBUG_MD5` is the Debug list rendering of the digest: the bytes as uppercase
two-digit hex, joined by a comma and a space and surrounded by square
brackets. -/
theorem c5_payload_path (root : RustPath) (accountId workerId payloadId : String)
    (md5Hash : List Nat) :
    pathOf root (.oplogPayload accountId workerId) (payloadRelPath md5Hash payloadId) =
      { absolute := root.absolute,
        comps := root.comps ++ [.normal "oplog_payload", .normal accountId,
          .normal workerId, .normal (md5DebugFormat md5Hash), .normal payloadId] } ∧
    (∀ (md5Compute : List Nat → List Nat) (maxPayloadSize : Nat) (bs : BlobStore)
        (data : List Nat),
      maxPayloadSize < data.length →
      (uploadPayload md5Compute payloadId accountId workerId maxPayloadSize bs data).1
          (.oplogPayload accountId workerId,
            payloadRelPath (md5Compute data) payloadId) = some data) := by
  constructor
  · simp [pathOf, RustPath.push, namespaceDirs, payloadRelPath]
  · intro md5Compute maxPayloadSize bs data hlen
    simp [uploadPayload, blobPut, hlen]

theorem c5_payload_path_witness :
    (uploadPayload (fun _ => [212, 29]) "pid1" "acct" "w1" 0
        (fun _ => none) [1, 2]).1
      (.oplogPayload "acct" "w1", payloadRelPath [212, 29] "pid1") = some [1, 2] := by
  have h := (c5_payload_path { absolute := true, comps := [] } "acct" "w1" "pid1"
    [212, 29]).2 (fun _ => [212, 29]) 0 (fun _ => none) [1, 2] (by decide)
  exact h

/-- Interrupt kinds (`crate::model::InterruptKind`). -/
inductive InterruptKind where
  | interrupt
  | restart
  | suspend
  | jump
deriving DecidableEq, Repr

/-- Execution status of a worker (`crate::model::ExecutionStatus`).  The
broadcast sender held by the `Interrupting` state is modelled by the numeric
identity of the channel; subscribing to it yields a receiver on the same
channel. -/
inductive ExecutionStatus where
  | running
  | suspended
  | interrupting (interruptKind : InterruptKind) (awaitInterruption : Nat)
  | interrupted (interruptKind : InterruptKind)
deriving DecidableEq, Repr

/-- Embedding of `Worker::set_interrupting`.  `freshChannel` models the
identity of the broadcast channel `tokio::sync::broadcast::channel(1)` would
freshly allocate; the second component is the returned optional receiver,
carrying the identity of the channel it listens on. -/
def setInterrupting (st : ExecutionStatus) (interruptKind : InterruptKind)
    (freshChannel : Nat) : ExecutionStatus × Option Nat :=
  match st with
  | .running => (.interrupting interruptKind freshChannel, some freshChannel)
  | .suspended => (.interrupted interruptKind, none)
  | .interrupting k c => (.interrupting k c, some c)
  | .interrupted k => (.interrupted k, none)

/-- C7: `set_interrupting` implements exactly the four-case transition
function: `Running` flips to `Interrupting` with a receiver of the freshly
allocated broadcast channel; `Suspended` flips to `Interrupted` with no
waiter; `Interrupting` is left unchanged and a subscription to its existing
channel is returned; `Interrupted` is left unchanged (no mutation) and no
waiter is returned. -/
theorem c7_set_interrupting_cases :
    (∀ (kind : InterruptKind) (fresh : Nat),
      setInterrupting .running kind fresh =
        (.interrupting kind fresh, some fresh)) ∧
    (∀ (kind : InterruptKind) (fresh : Nat),
      setInterrupting .suspended kind fresh = (.interrupted kind, none)) ∧
    (∀ (kind k : InterruptKind) (fresh c : Nat),
      setInterrupting (.interrupting k c) kind fresh =
        (.interrupting k c, some c)) ∧
    (∀ (kind k : InterruptKind) (fresh : Nat),
      setInterrupting (.interrupted k) kind fresh = (.interrupted k, none)) :=
  ⟨fun _ _ => rfl, fun _ _ => rfl, fun _ _ _ _ => rfl, fun _ _ _ => rfl⟩

/-- Stored worker metadata fields checked on rebind (`WorkerMetadata` as used
by `validate_worker`). -/
structure WorkerMetadataModel where
  args : List String
  env : List (String × String)
  templateVersion : Int
deriving DecidableEq, Repr

/-- Worker-executor errors, reduced to the constructors the claims
distinguish. -/
inductive GolemError where
  | workerCreationFailed (details : String)
  | other (details : String)
deriving DecidableEq, Repr

/-- Embedding of `validate_worker` in `worker.rs`: collects one error message
per mismatching field (the message texts abbreviate the formatted Rust
messages) and fails with `WorkerCreationFailed` joining them with newlines
when any mismatch exists. -/
def validateWorker (workerMetadata : WorkerMetadataModel) (workerArgs : List String)
    (workerEnv : List (String × String)) (templateVersion : Option Int) :
    Except GolemError Unit :=
  let errors :=
    (if workerMetadata.args ≠ workerArgs then
      ["Worker is already running with different args"]
    else []) ++
    (if workerMetadata.env ≠ workerEnv then
      ["Worker is already running with different env"]
    else []) ++
    (match templateVersion with
      | some version =>
        if workerMetadata.templateVersion ≠ version then
          ["Worker is already running with different template version"]
        else []
      | none => [])
  if errors.isEmpty then .ok ()
  else .error (.workerCreationFailed (String.intercalate "\n" errors))

/-- A live worker handle: its stored metadata and its execution status. -/
structure WorkerModel where
  metadata : WorkerMetadataModel
  status : ExecutionStatus
deriving DecidableEq, Repr

/-- Embedding of the tail of `Worker::get_or_create` when the active-worker
cache resolves to an existing live worker: the handle is validated against
the requested arguments and returned unchanged on success; validation does
not mutate the worker. -/
def getOrCreateExisting (w : WorkerModel) (workerArgs : List String)
    (workerEnv : List (String × String)) (templateVersion : Option Int) :
    Except GolemError WorkerModel :=
  match validateWorker w.metadata workerArgs workerEnv templateVersion with
  | .ok _ => .ok w
  | .error e => .error e

/-- C8: resolving `get_or_create` against an existing live worker succeeds and
returns that worker unchanged exactly when the requested args and env equal
the stored metadata and any requested template version equals the stored one;
otherwise the result is a `WorkerCreationFailed` error (and the worker is not
modified: the call returns either the original handle or an error). -/
theorem c8_get_or_create_validation (w : WorkerModel) (workerArgs : List String)
    (workerEnv : List (String × String)) (templateVersion : Option Int) :
    (getOrCreateExisting w workerArgs workerEnv templateVersion = .ok w ↔
      (w.metadata.args = workerArgs ∧ w.metadata.env = workerEnv ∧
        ∀ v, templateVersion = some v → w.metadata.templateVersion = v)) ∧
    (getOrCreateExisting w workerArgs workerEnv templateVersion = .ok w ∨
      ∃ d, getOrCreateExisting w workerArgs workerEnv templateVersion =
        .error (.workerCreationFailed d)) := by
  unfold getOrCreateExisting validateWorker
  rcases templateVersion with _ | v
  · by_cases h1 : w.metadata.args = workerArgs <;>
      by_cases h2 : w.metadata.env = workerEnv <;>
        simp [h1, h2]
  · by_cases h1 : w.metadata.args = workerArgs <;>
      by_cases h2 : w.metadata.env = workerEnv <;>
        by_cases h3 : w.metadata.templateVersion = v <;>
          simp [h1, h2, h3]

theorem c8_get_or_create_validation_witness :
    getOrCreateExisting
        { metadata := { args := ["a"], env := [("K", "V")], templateVersion := 3 },
          status := .running }
        ["a"] [("K", "V")] (some 3) =
      .ok { metadata := { args := ["a"], env := [("K", "V")], templateVersion := 3 },
            status := .running } :=
  (c8_get_or_create_validation
      { metadata := { args := ["a"], env := [("K", "V")], templateVersion := 3 },
        status := .running }
      ["a"] [("K", "V")] (some 3)).1.mpr
    ⟨rfl, rfl, fun v hv => by cases hv; rfl⟩

/-- Worker statuses distinguished by metadata filters
(`golem_common::model::WorkerStatus`). -/
inductive WorkerStatusModel where
  | running
  | idle
  | suspended
  | interrupted
  | retrying
  | failed
  | exited
deriving DecidableEq, Repr

/-- Filter comparators (`golem_common::model::FilterComparator`). -/
inductive FilterComparatorModel where
  | equal
  | notEqual
  | less
  | greaterEqual
deriving DecidableEq, Repr

/-- Worker metadata filters (`golem_common::model::WorkerFilter`), modelled
with the variants `is_filter_with_running_status` distinguishes; the type
itself lives outside the analysed sources. -/
inductive WorkerFilter where
  | status (comparator : FilterComparatorModel) (value : WorkerStatusModel)
  | name (comparator : FilterComparatorModel) (value : String)
  | version (comparator : FilterComparatorModel) (value : Nat)
  | and (filters : List WorkerFilter)
  | or (filters : List WorkerFilter)
  | not (f : WorkerFilter)

mutual

/-- Embedding of `is_filter_with_running_status` in
`service/worker/default.rs`: a status filter comparing equal to `Running`, or
an `And` filter one of whose members satisfies the predicate. -/
def isFilterWithRunningStatus : WorkerFilter → Bool
  | .status c v => v == .running && c == .equal
  | .and fs => anyFilterWithRunningStatus fs
  | _ => false

/-- Helper of `isFilterWithRunningStatus`: `Iterator::any` over the members
of an `And` filter. -/
def anyFilterWithRunningStatus : List WorkerFilter → Bool
  | [] => false
  | f :: rest => isFilterWithRunningStatus f || anyFilterWithRunningStatus rest

end

/-- Dispatch targets of `call_worker_executor`
(`TargetWorkerServiceRouting`): a single worker, a random executor, or a
fan-out over all executors. -/
inductive ExecutorTarget where
  | singleWorker (workerName : String)
  | randomExecutor
  | allExecutors
deriving DecidableEq, Repr

/-- Responses of the two executor query paths of `find_metadata`, supplied as
an oracle: the flattened fan-out result of `GetRunningWorkersMetadata` and
the cursor and page of a `GetWorkersMetadata` scan. -/
structure MetadataBackend where
  runningWorkers : List String
  pagedCursor : Option Nat
  pagedWorkers : List String

/-- Embedding of `WorkerServiceDefault::find_metadata`: a filter satisfying
`is_filter_with_running_status` dispatches to all executors and returns the
fan-out result truncated to `count` with no cursor; any other request goes to
the paged scan on a random executor, passing the backend cursor through. -/
def findMetadata (filter : Option WorkerFilter) (count : Nat)
    (backend : MetadataBackend) : ExecutorTarget × Option Nat × List String :=
  if filter.any isFilterWithRunningStatus then
    (.allExecutors, none, backend.runningWorkers.take count)
  else
    (.randomExecutor, backend.pagedCursor, backend.pagedWorkers)

/-- C9: a `find_metadata` call whose filter requires status equal to
`Running` (the filter is a status-equals-Running filter or an `And`
containing one) is dispatched to all executors and always returns cursor
`None`; every other call uses the paged scan path on a random executor and
passes the backend cursor through, so a cursor may be returned. -/
theorem c9_find_metadata_dispatch (filter : Option WorkerFilter) (count : Nat)
    (backend : MetadataBackend) :
    (filter.any isFilterWithRunningStatus = true →
      findMetadata filter count backend =
        (.allExecutors, none, backend.runningWorkers.take count)) ∧
    (filter.any isFilterWithRunningStatus = false →
      findMetadata filter count backend =
        (.randomExecutor, backend.pagedCursor, backend.pagedWorkers)) := by
  constructor
  · intro h
    simp [findMetadata, h]
  · intro h
    simp [findMetadata, h]

theorem c9_find_metadata_dispatch_witness :
    findMetadata (some (.status .equal .running)) 5
        { runningWorkers := ["w1", "w2"], pagedCursor := some 9,
          pagedWorkers := ["w3"] } =
      (.allExecutors, none, ["w1", "w2"]) ∧
    findMetadata (some (.status .equal .idle)) 5
        { runningWorkers := ["w1", "w2"], pagedCursor := some 9,
          pagedWorkers := ["w3"] } =
      (.randomExecutor, some 9, ["w3"]) := by
  constructor
  · have h := (c9_find_metadata_dispatch (some (.status .equal .running)) 5
      { runningWorkers := ["w1", "w2"], pagedCursor := some 9,
        pagedWorkers := ["w3"] }).1 rfl
    rw [h]; rfl
  · have h := (c9_find_metadata_dispatch (some (.status .equal .idle)) 5
      { runningWorkers := ["w1", "w2"], pagedCursor := some 9,
        pagedWorkers := ["w3"] }).2 rfl
    exact h

/-- Outcome of a host call as seen by the guest: a value or an error.  Errors
are serialized uniformly so replay reproduces them. -/
inductive HostOutcome where
  | ok (value : Nat)
  | err (message : String)
deriving DecidableEq, Repr

/-- Modelled from the spec: serialization of a host-call outcome into the
payload bytes of an `ImportedFunctionInvoked` entry (the concrete
serialization format lives outside the analysed sources). -/
def encodeOutcome : HostOutcome → List Nat
  | .ok v => 0 :: [v]
  | .err m => 1 :: m.toList.map Char.toNat

/-- Modelled from the spec: deserialization of a recorded host-call outcome,
the inverse of `encodeOutcome`. -/
def decodeOutcome : List Nat → Option HostOutcome
  | 0 :: [v] => some (.ok v)
  | 1 :: rest => some (.err (String.mk (rest.map Char.ofNat)))
  | _ => none

theorem decodeOutcome_encodeOutcome (o : HostOutcome) :
    decodeOutcome (encodeOutcome o) = some o := by
  cases o with
  | ok v => rfl
  | err m =>
    obtain ⟨l⟩ := m
    simp [encodeOutcome, decodeOutcome, List.map_map, Function.comp_def,
      Char.ofNat_toNat, String.toList]

/-- Modelled from the spec: the live branch of `Durability::wrap`
(`golem_host`, not under the analysed sources; only its call sites such as
`monotonic_clock.rs` are).  The real host is called (its outcome is the
oracle `hostResult`), the outcome is serialized and appended to the oplog as
an `ImportedFunctionInvoked` entry, a `WriteRemote`-typed call commits the
oplog, and the host outcome is returned to the guest. -/
def durabilityWrapLive (s : PrimaryOplogState) (functionName : String)
    (wrappedFunctionType : WrappedFunctionType) (hostResult : HostOutcome) :
    PrimaryOplogState × HostOutcome :=
  let s1 := s.add
    (.importedFunctionInvoked functionName (encodeOutcome hostResult) wrappedFunctionType)
  let s2 := if wrappedFunctionType = .writeRemote then s1.commit else s1
  (s2, hostResult)

/-- Modelled from the spec: the replay branch of `Durability::wrap` reads the
next expected `ImportedFunctionInvoked` entry, deserializes its payload and
returns it to the guest without calling the real host; any other entry shape
is a replay failure. -/
def durabilityWrapReplay : List OplogEntry → Option (HostOutcome × List OplogEntry)
  | .importedFunctionInvoked _ payload _ :: rest =>
    (decodeOutcome payload).map (fun v => (v, rest))
  | _ => none

/-- Runs a sequence of host calls in live mode under the durability wrapper;
each call is a function name, a wrapped function type and the outcome the
real host produces.  Returns the final oplog state and the guest-visible
sequence of results. -/
def runLive (s : PrimaryOplogState) :
    List (String × WrappedFunctionType × HostOutcome) →
    PrimaryOplogState × List HostOutcome
  | [] => (s, [])
  | (fn, wft, res) :: rest =>
    let step := durabilityWrapLive s fn wft res
    let tail := runLive step.1 rest
    (tail.1, step.2 :: tail.2)

/-- Replays a journal of oplog entries through the replay branch of the
wrapper, collecting the guest-visible sequence of host-call results. -/
def replayRun : List OplogEntry → Option (List HostOutcome)
  | [] => some []
  | .importedFunctionInvoked _ payload _ :: rest =>
    match decodeOutcome payload with
    | some v => (replayRun rest).map (fun vs => v :: vs)
    | none => none
  | _ => none

/-- Journal view of an oplog state: the committed entries followed by the
staged entries, in order. -/
def oplogJournal (s : PrimaryOplogState) : List OplogEntry :=
  s.stream.map Prod.snd ++ s.buffer

/-- Entries the durability wrapper records for a sequence of live host
calls. -/
def journalOf (calls : List (String × WrappedFunctionType × HostOutcome)) :
    List OplogEntry :=
  calls.map (fun c => .importedFunctionInvoked c.1 (encodeOutcome c.2.2) c.2.1)

theorem zipWithIndexFrom_map_snd (es : List OplogEntry) :
    ∀ i, (zipWithIndexFrom i es).map Prod.snd = es := by
  induction es with
  | nil => intro i; rfl
  | cons e rest ih => intro i; simp [zipWithIndexFrom, ih]

theorem add_oplogJournal (s : PrimaryOplogState) (e : OplogEntry) :
    oplogJournal (s.add e) = oplogJournal s ++ [e] := by
  rcases Nat.lt_or_ge s.maxOperationsBeforeCommit (s.buffer.length + 1) with hf | hnf
  · have hc := add_of_full s e hf
    simp [oplogJournal, hc.1, hc.2.1, zipWithIndexFrom_map_snd]
  · have hc := add_of_not_full s e (by omega)
    simp [oplogJournal, hc.1, hc.2.1]

theorem commit_oplogJournal (s : PrimaryOplogState) :
    oplogJournal s.commit = oplogJournal s := by
  simp [oplogJournal, commit_stream, commit_buffer, zipWithIndexFrom_map_snd]

theorem durabilityWrapLive_oplogJournal (s : PrimaryOplogState) (fn : String)
    (wft : WrappedFunctionType) (r : HostOutcome) :
    oplogJournal (durabilityWrapLive s fn wft r).1 =
      oplogJournal s ++ [.importedFunctionInvoked fn (encodeOutcome r) wft] := by
  simp only [durabilityWrapLive]
  split
  · rw [commit_oplogJournal, add_oplogJournal]
  · rw [add_oplogJournal]

theorem runLive_oplogJournal (calls : List (String × WrappedFunctionType × HostOutcome)) :
    ∀ s, oplogJournal (runLive s calls).1 = oplogJournal s ++ journalOf calls := by
  induction calls with
  | nil => intro s; simp [runLive, journalOf]
  | cons c rest ih =>
    intro s
    obtain ⟨fn, wft, res⟩ := c
    simp only [runLive]
    rw [ih, durabilityWrapLive_oplogJournal]
    simp [journalOf]

theorem runLive_results (calls : List (String × WrappedFunctionType × HostOutcome)) :
    ∀ s, (runLive s calls).2 = calls.map (fun c => c.2.2) := by
  induction calls with
  | nil => intro s; rfl
  | cons c rest ih =>
    intro s
    obtain ⟨fn, wft, res⟩ := c
    simp [runLive, ih, durabilityWrapLive]

theorem replayRun_journalOf (calls : List (String × WrappedFunctionType × HostOutcome)) :
    replayRun (journalOf calls) = some (calls.map (fun c => c.2.2)) := by
  induction calls with
  | nil => rfl
  | cons c rest ih =>
    obtain ⟨fn, wft, res⟩ := c
    simp [journalOf] at ih ⊢
    simp [replayRun, decodeOutcome_encodeOutcome, ih]

/-- C1: under the durability wrapper, (live mode) a `WriteRemote`-typed call
leaves its `ImportedFunctionInvoked` record committed in the backing stream —
the staging buffer is empty when the host outcome is returned to the guest —
and returns exactly the host outcome; (replay mode) the wrapper returns
exactly the value deserialized from the next `ImportedFunctionInvoked`
entry; consequently replaying the journal written by a live run yields the
same guest-visible sequence of host-call results as the original run. -/
theorem c1_durability_wrapper :
    (∀ (s : PrimaryOplogState) (fn : String) (r : HostOutcome),
      (durabilityWrapLive s fn .writeRemote r).1.buffer = [] ∧
      ((durabilityWrapLive s fn .writeRemote r).1.stream.map Prod.snd =
        s.stream.map Prod.snd ++ s.buffer ++
          [.importedFunctionInvoked fn (encodeOutcome r) .writeRemote]) ∧
      (durabilityWrapLive s fn .writeRemote r).2 = r) ∧
    (∀ (fn : String) (payload : List Nat) (wft : WrappedFunctionType)
        (rest : List OplogEntry),
      durabilityWrapReplay (.importedFunctionInvoked fn payload wft :: rest) =
        (decodeOutcome payload).map (fun v => (v, rest))) ∧
    (∀ (s : PrimaryOplogState) (calls : List (String × WrappedFunctionType × HostOutcome)),
      replayRun (journalOf calls) = some ((runLive s calls).2) ∧
      oplogJournal (runLive s calls).1 = oplogJournal s ++ journalOf calls) := by
  refine ⟨?_, ?_, ?_⟩
  · intro s fn r
    refine ⟨?_, ?_, rfl⟩
    · simp [durabilityWrapLive, commit_buffer]
    · have h := durabilityWrapLive_oplogJournal s fn .writeRemote r
      have hb : (durabilityWrapLive s fn .writeRemote r).1.buffer = [] := by
        simp [durabilityWrapLive, commit_buffer]
      simp only [oplogJournal, hb, List.append_nil] at h
      rw [h]
  · intro fn payload wft rest
    rfl
  · intro s calls
    refine ⟨?_, runLive_oplogJournal calls s⟩
    rw [replayRun_journalOf, runLive_results]
